import Mathlib

/-!
Verification model of the RAG worker of this repository
(`src/src/workers/ragWorker.ts`, the DuckDB-based version): the vector store
(cosine similarity, similarity search, stats, clearing), the indexing
pipeline, the conversational query engine with its streaming chunk buffer and
bounded conversation memory, and the single-flight model loader.

Modelling conventions:
- JavaScript numbers are modelled over an arbitrary `LinearOrderedField` so
  that concrete executions can be evaluated over `ℚ`; the theorems about the
  numeric similarity measure are stated over `ℝ` with `Real.sqrt` standing
  for `Math.sqrt`.  JavaScript division is modelled faithfully through the
  `JSF` type (NaN and signed infinities), since `0/0` is NaN in JavaScript.
- `Math.sqrt` enters as an explicit function parameter `sqrtFn`; all theorems
  about numeric behaviour instantiate it with `Real.sqrt`.
- External collaborators (embedding service, tokenizer chat template, the
  generation model and its stream callbacks, timer scheduling of the chunk
  buffer) are oracle parameters, as in the specification's collaborator
  contracts.
-/

namespace RagWorker

/-- Value of a JavaScript floating-point expression: a finite scalar, a
signed infinity, or NaN. -/
inductive JSF (α : Type) where
  | nan : JSF α
  | posInf : JSF α
  | negInf : JSF α
  | fin (x : α) : JSF α
deriving DecidableEq

variable {α : Type} [LinearOrderedField α]

/-- JavaScript division `x / y` of finite operands: `0/0` is NaN, a nonzero
numerator over `0` is a signed infinity, otherwise the finite quotient. -/
def jsDiv (x y : α) : JSF α :=
  if y = 0 then (if x = 0 then JSF.nan else if 0 < x then JSF.posInf else JSF.negInf)
  else JSF.fin (x / y)

/-- JavaScript subtraction on `JSF` values (IEEE semantics). -/
def jsSub : JSF α → JSF α → JSF α
  | JSF.nan, _ => JSF.nan
  | _, JSF.nan => JSF.nan
  | JSF.posInf, JSF.posInf => JSF.nan
  | JSF.posInf, _ => JSF.posInf
  | JSF.negInf, JSF.negInf => JSF.nan
  | JSF.negInf, _ => JSF.negInf
  | JSF.fin _, JSF.posInf => JSF.negInf
  | JSF.fin _, JSF.negInf => JSF.posInf
  | JSF.fin x, JSF.fin y => JSF.fin (x - y)

/-- The IEEE comparison `c > 0` for a `JSF` value (false for NaN). -/
def cmpPos : JSF α → Prop
  | JSF.posInf => True
  | JSF.fin x => 0 < x
  | _ => False

instance : DecidablePred (cmpPos (α := α))
  | JSF.nan => Decidable.isFalse (fun h => h)
  | JSF.posInf => Decidable.isTrue trivial
  | JSF.negInf => Decidable.isFalse (fun h => h)
  | JSF.fin x => inferInstanceAs (Decidable (0 < x))

/-- The IEEE comparison `a >= b` on `JSF` values (false whenever either
operand is NaN). -/
def jsGE : JSF α → JSF α → Prop
  | JSF.nan, _ => False
  | _, JSF.nan => False
  | JSF.posInf, _ => True
  | _, JSF.posInf => False
  | JSF.negInf, JSF.negInf => True
  | JSF.negInf, JSF.fin _ => False
  | JSF.fin _, JSF.negInf => True
  | JSF.fin x, JSF.fin y => y ≤ x

/-- A `JSF` value that is an ordinary number (neither NaN nor an infinity). -/
def isFin : JSF α → Prop
  | JSF.fin _ => True
  | _ => False

/-- `dotProduct` of the loop in `DuckDBVectorStore.cosineSimilarity`:
`dotProduct += a[i] * b[i]` over the common indices. -/
def dotProduct : List α → List α → α
  | x :: xs, y :: ys => x * y + dotProduct xs ys
  | _, _ => 0

/-- `normA` (resp. `normB`) of the same loop: the sum of squares of the
entries. -/
def normSq : List α → α
  | x :: xs => x * x + normSq xs
  | [] => 0

/-- `DuckDBVectorStore.cosineSimilarity`: returns `0` when the two vectors
differ in length, otherwise `dotProduct / (Math.sqrt(normA) * Math.sqrt(normB))`
with JavaScript division semantics. -/
def cosineSimilarity (sqrtFn : α → α) (a b : List α) : JSF α :=
  if a.length ≠ b.length then JSF.fin 0
  else jsDiv (dotProduct a b) (sqrtFn (normSq a) * sqrtFn (normSq b))

/-- Chunk metadata as used by the worker: `metadata.source` and
`metadata.loc.source` (both set to the file name during indexing). -/
structure Meta where
  source : Option String
  locSource : Option String
deriving DecidableEq

/-- A row of the `vectors` table. -/
structure Row (α : Type) where
  id : Nat
  vector : List α
  text : String
  meta : Meta
deriving DecidableEq

/-- A LangChain `Document` as the worker uses it: page content plus metadata. -/
structure Doc where
  pageContent : String
  meta : Meta
deriving DecidableEq

/-- One entry of the `similarities` array built by `similaritySearch`. -/
structure SimRec (α : Type) where
  text : String
  meta : Meta
  similarity : JSF α
deriving DecidableEq

/-- The sort comparator `(a, b) => b.similarity - a.similarity`: element `a`
may stay before element `b` exactly when the comparator result is not
positive (for a NaN comparator result the engine does not reorder). -/
def keepBefore (a b : SimRec α) : Prop :=
  ¬ cmpPos (jsSub b.similarity a.similarity)

instance : DecidableRel (keepBefore (α := α)) :=
  fun _ _ => inferInstanceAs (Decidable (¬ _))

/-- The `similarities` array of `similaritySearch` after the descending sort:
each stored row is scored against the query vector and the result is sorted
by the comparator `b.similarity - a.similarity`. -/
def rankedRecords (sqrtFn : α → α) (qv : List α) (rows : List (Row α)) :
    List (SimRec α) :=
  List.insertionSort keepBefore
    (rows.map fun r => ⟨r.text, r.meta, cosineSimilarity sqrtFn qv r.vector⟩)

/-- JavaScript `Array.prototype.slice(0, k)` for an integer `k`: a negative
end index counts back from the end of the array. -/
def jsSliceTo (k : ℤ) (l : List β) : List β :=
  if 0 ≤ k then l.take k.toNat else l.take (l.length - (-k).toNat)

/-- Conversion of a scored record back to a `Document` (the score is
dropped), as in the final `map` of `similaritySearch`. -/
def toDoc (s : SimRec α) : Doc :=
  ⟨s.text, s.meta⟩

/-- `DuckDBVectorStore.similaritySearch` with the embedded query vector `qv`
already obtained from the embedding service: score all rows, sort descending
by similarity, keep the top `k`, return documents. -/
def similaritySearch (sqrtFn : α → α) (qv : List α) (rows : List (Row α))
    (k : ℤ) : List Doc :=
  (jsSliceTo k (rankedRecords sqrtFn qv rows)).map toDoc

/-- Modelled from the spec: the chunker (`RecursiveCharacterTextSplitter`
from the `@langchain/textsplitters` package is not part of this repository's
sources; only its configuration is).  Section 4.2 of the specification:
emit maximal windows of length `chunkSize`, advancing by
`chunkSize - chunkOverlap` each step, with the final partial window
included.  The window that first reaches the end of the text is the last.
The fuel argument only forces termination; it is always called with fuel at
least the text length, which one step per emitted window never exhausts. -/
def chunkLoop (cs stride : Nat) : Nat → List Char → List (List Char)
  | 0, l => [l.take cs]
  | fuel + 1, l =>
    if l.length ≤ cs then [l]
    else l.take cs :: chunkLoop cs stride fuel (l.drop (max stride 1))

/-- Modelled from the spec: chunk a content string with the configured
`chunkSize` and `chunkOverlap` (stride `chunkSize - chunkOverlap`). -/
def chunkText (cs co : Nat) (s : String) : List String :=
  (chunkLoop cs (cs - co) s.data.length s.data).map fun l => String.mk l

/-- The payload of a `STATS_RESULT` message (`getStats`). -/
structure Stats where
  totalDocuments : Nat
  totalChunks : Nat
  averageChunkLength : ℤ
deriving DecidableEq

/-- JavaScript `Math.round`: round half away from zero for positive halves,
i.e. the floor of `x + 1/2`. -/
def jsRound [FloorRing α] (x : α) : ℤ :=
  ⌊x + 1 / 2⌋

/-- JavaScript truthiness of an optional string (the empty string is falsy),
used for `metadata.loc?.source || metadata.source`. -/
def truthy : Option String → Option String
  | some s => if s = "" then none else some s
  | none => none

/-- The file name recorded in a row's metadata:
`metadata.loc?.source || metadata.source`, skipped when falsy. -/
def sourceName (m : Meta) : Option String :=
  match truthy m.locSource with
  | some s => some s
  | none => truthy m.source

/-- `DuckDBVectorStore.getStats`: all zero without a connection; otherwise
the distinct recorded source names, the row count, and the rounded mean text
length (zero on an empty table). -/
def getStats [FloorRing α] (conn : Bool) (rows : List (Row α)) : Stats :=
  if conn = false then ⟨0, 0, 0⟩
  else
    { totalDocuments := (rows.filterMap fun r => sourceName r.meta).dedup.length
      totalChunks := rows.length
      averageChunkLength :=
        if rows.length = 0 then 0
        else jsRound ((rows.map fun r => (r.text.length : α)).sum / (rows.length : α)) }

/-- `DuckDBVectorStore.fileExists`: false without a connection; otherwise
scan all rows for `metadata.loc?.source === fileName || metadata.source ===
fileName`. -/
def fileExists (conn : Bool) (rows : List (Row α)) (fileName : String) : Bool :=
  conn && rows.any fun r =>
    r.meta.locSource == some fileName || r.meta.source == some fileName

/-- Role of a chat message. -/
inductive Role where
  | user
  | assistant
  | system
deriving DecidableEq

/-- One conversation turn (`{role, content}`). -/
structure Turn where
  role : Role
  content : String
deriving DecidableEq

/-- Messages posted by the worker to the main thread (payload-carrying
constructors keep exactly the payload fields the claims are about). -/
inductive Msg where
  | initSuccess
  | statsResult (stats : Stats)
  | indexProgress (fileName : String) (chunkCount : Nat) (skipped : Bool)
  | indexComplete
  | queryChunk (chunk : String)
  | queryResult (response : String) (isFallback : Bool)
  | memoryCleared
  | databaseCleared (stats : Stats)
  | modelLoadedMsg
  | syntheticGenerated (content : String) (topic : String)
  | errorMsg (error : String)
deriving DecidableEq

/-- Worker-global mutable state: conversation memory, the `vectors` table
with its id sequence, the IndexedDB persisted copy (`none` when deleted),
the vector-store handle and database connection, the initialization and
model flags, and the configured splitter settings. -/
structure WorkerState (α : Type) where
  conv : List Turn
  rows : List (Row α)
  seqNext : Nat
  idb : Option (List (Row α))
  hasStore : Bool
  hasConn : Bool
  isInitialized : Bool
  modelLoaded : Bool
  chunkSize : Nat
  chunkOverlap : Nat
deriving DecidableEq

/-- Insert one row through the id sequence (`INSERT INTO vectors ...` with
`DEFAULT nextval`). -/
def insertRow (st : WorkerState α) (vec : List α) (text : String) (m : Meta) :
    WorkerState α :=
  { st with rows := st.rows ++ [⟨st.seqNext, vec, text, m⟩], seqNext := st.seqNext + 1 }

/-- `DuckDBVectorStore.addDocuments`: embed every document, insert the rows
in order, then snapshot the whole table to IndexedDB. -/
def addDocuments (embed : String → List α) (st : WorkerState α)
    (docs : List Doc) : WorkerState α :=
  let st1 := docs.foldl (fun s d => insertRow s (embed d.pageContent) d.pageContent d.meta) st
  { st1 with idb := some st1.rows }

/-- `DuckDBVectorStore.clearDatabase`: with a connection, delete all rows,
restart the id sequence at 1, and delete the IndexedDB database; without a
connection it is a no-op. -/
def clearDatabase (st : WorkerState α) : WorkerState α :=
  if st.hasConn then { st with rows := [], seqNext := 1, idb := none } else st

/-- `jsSliceNeg n l` is JavaScript `l.slice(-n)`: the last `n` elements
(the whole list when it is shorter than `n`). -/
def jsSliceNeg (n : Nat) (l : List β) : List β :=
  l.drop (l.length - n)

/-- One step of the `TextStreamer` callback plus the chunk buffer: append
the fragment to the buffer, flush when the buffer has reached 20 characters,
and flush again if the pending 50 ms timer fires before the next event (the
Boolean of the event is the timer-schedule oracle). -/
def streamStep (acc : List String × String) (ev : String × Bool) :
    List String × String :=
  let buf1 := acc.2 ++ ev.1
  let acc1 := if 20 ≤ buf1.length then (acc.1 ++ [buf1], "") else (acc.1, buf1)
  if ev.2 && acc1.2 != "" then (acc1.1 ++ [acc1.2], "") else acc1

/-- The `QUERY_CHUNK` payloads emitted during one generation: run the
buffered callbacks, then flush any remaining buffered text unconditionally
(`flushChunkBuffer()` after the generation call). -/
def runStream (evs : List (String × Bool)) : List String :=
  let acc := evs.foldl streamStep ([], "")
  if acc.2 = "" then acc.1 else acc.1 ++ [acc.2]

/-- `streamedText`: the concatenation of all callback fragments. -/
def streamedTextOf (evs : List (String × Bool)) : String :=
  String.join (evs.map Prod.fst)

/-- The fixed system instruction of the query prompt (stands for the full
instruction block of the source; its exact wording is not load-bearing for
any claim). -/
def systemPromptText : String :=
  "You are a helpful AI assistant. Your role is to answer questions using ONLY the provided context from the knowledge base."

/-- The role mapping of the prompt assembly:
`msg.role === 'user' ? 'user' : 'assistant'`. -/
def normalizeRole (t : Turn) : Turn :=
  ⟨if t.role = Role.user then Role.user else Role.assistant, t.content⟩

/-- The final user turn of the prompt, embedding the retrieved context and
the question. -/
def contextTurn (contextText q : String) : Turn :=
  ⟨Role.user, "Context from knowledge base:\n" ++ contextText ++
    "\n\nUser question: " ++ q ++ "\n\nAnswer based on the context above:"⟩

/-- The `chat` array handed to `apply_chat_template`: the system prompt,
then `conversationHistory.slice(-6)`, then the context-bearing user turn. -/
def promptChat (history : List Turn) (contextText q : String) : List Turn :=
  ⟨Role.system, systemPromptText⟩ ::
    ((jsSliceNeg 6 history).map normalizeRole ++ [contextTurn contextText q])

/-- The fallback response body: the ranked, numbered retrieval snippets, or
the fixed no-documents message when retrieval was empty. -/
def fallbackResponse (results : List Doc) : String :=
  if 0 < results.length then
    String.intercalate "\n\n"
      (results.enum.map fun p => "[" ++ toString (p.1 + 1) ++ "] " ++ p.2.pageContent)
  else "No relevant documents found in the knowledge base."

/-- Whitespace for the purposes of JavaScript `String.prototype.trim` (the
characters that occur in this development; JavaScript also trims further
Unicode space characters). -/
def isJsSpace (c : Char) : Bool :=
  c = ' ' || c = '\t' || c = '\n' || c = '\r'

/-- JavaScript `String.prototype.trim`: drop whitespace from both ends. -/
def jsTrim (s : String) : String :=
  String.mk (((s.data.dropWhile isJsSpace).reverse.dropWhile isJsSpace).reverse)

/-- JavaScript `String.prototype.startsWith`. -/
def jsStartsWith (s pre : String) : Bool :=
  s.data.take pre.data.length == pre.data

/-- JavaScript `String.prototype.slice(n)`: the characters from index `n`
on. -/
def jsDropChars (s : String) (n : Nat) : String :=
  String.mk (s.data.drop n)

/-- `cleanResponse`: prefer the streamed text over the raw output, strip the
prompt when the output repeats it verbatim, and trim whitespace. -/
def cleanResponseOf (prompt streamed rawOut : String) : String :=
  let responseContent := if streamed ≠ "" then streamed else rawOut
  if jsStartsWith responseContent prompt then
    jsTrim (jsDropChars responseContent prompt.data.length)
  else jsTrim responseContent

/-- The `QUERY` case of the worker's message handler.  Oracle parameters:
`embed` is the embedding service, `template` the tokenizer chat template,
`modelAvail` whether the generation model is available once the bounded
wait/load section has finished, `stream` the generation fragments with the
timer schedule, and `rawOut` the extracted raw pipeline output (used only
when nothing was streamed). -/
def handleQuery (sqrtFn : α → α) (embed : String → List α)
    (template : List Turn → String) (st : WorkerState α) (q : String)
    (chatHistory : List Turn) (modelAvail : Bool)
    (stream : List (String × Bool)) (rawOut : String) :
    WorkerState α × List Msg :=
  if ¬ (st.hasStore && st.isInitialized) then
    (st, [Msg.errorMsg "Vector store not initialized"])
  else
    let base := if chatHistory.isEmpty then st.conv else chatHistory
    let conv1 := base ++ [⟨Role.user, q⟩]
    let effModel := st.modelLoaded || modelAvail
    let results := similaritySearch sqrtFn (embed q) st.rows 3
    if effModel = false then
      ({ st with conv := conv1 }, [Msg.queryResult (fallbackResponse results) true])
    else
      let contextText := String.intercalate "\n\n" (results.map fun d => d.pageContent)
      let prompt := template (promptChat conv1 contextText q)
      let streamed := streamedTextOf stream
      let clean := cleanResponseOf prompt streamed rawOut
      let conv2 := conv1 ++ [⟨Role.assistant, clean⟩]
      let conv3 := if 10 < conv2.length then jsSliceNeg 10 conv2 else conv2
      ({ st with conv := conv3, modelLoaded := true },
        (runStream stream).map Msg.queryChunk ++ [Msg.queryResult clean false])

/-- Per-file body of the `INDEX_DOCUMENTS` loop: silently skip empty
content, skip with a `skipped` progress signal when the file name is already
indexed, otherwise chunk, tag every chunk's metadata with the file name,
insert, and report the chunk count. -/
def indexOneFile (embed : String → List α)
    (acc : WorkerState α × List Msg) (f : String × String) :
    WorkerState α × List Msg :=
  if f.2 = "" then acc
  else if fileExists acc.1.hasConn acc.1.rows f.1 then
    (acc.1, acc.2 ++ [Msg.indexProgress f.1 0 true])
  else
    let docs := (chunkText acc.1.chunkSize acc.1.chunkOverlap f.2).map
      fun t => (⟨t, ⟨some f.1, some f.1⟩⟩ : Doc)
    (addDocuments embed acc.1 docs, acc.2 ++ [Msg.indexProgress f.1 docs.length false])

/-- The `INDEX_DOCUMENTS` case: guard on initialization, update the splitter
settings when either is provided, process the files in request order, then
emit `INDEX_COMPLETE` and refreshed stats. -/
def handleIndex [FloorRing α] (embed : String → List α) (st : WorkerState α)
    (files : List (String × String)) (csOpt coOpt : Option Nat) :
    WorkerState α × List Msg :=
  if ¬ (st.hasStore && st.isInitialized) then
    (st, [Msg.errorMsg "RAG system not initialized"])
  else
    let st0 := if csOpt.isSome || coOpt.isSome then
        { st with chunkSize := csOpt.getD 500, chunkOverlap := coOpt.getD 50 }
      else st
    let acc := files.foldl (indexOneFile embed) (st0, [])
    (acc.1, acc.2 ++ [Msg.indexComplete, Msg.statsResult (getStats acc.1.hasConn acc.1.rows)])

/-- The `INIT` case: when not yet initialized, create the splitter with the
default settings, open the store and connection, load the IndexedDB rows
into the table, then report success and initial stats. -/
def handleInit [FloorRing α] (st : WorkerState α) : WorkerState α × List Msg :=
  if st.isInitialized then (st, [Msg.initSuccess])
  else
    let stA := { st with hasStore := true, hasConn := true, chunkSize := 500, chunkOverlap := 50 }
    let stB := (st.idb.getD []).foldl (fun s r => insertRow s r.vector r.text r.meta) stA
    let stC := { stB with isInitialized := true }
    (stC, [Msg.initSuccess, Msg.statsResult (getStats stC.hasConn stC.rows)])

/-- The `CLEAR_DATABASE` case: guard on initialization, clear the store,
reset the conversation memory, then report the refreshed stats. -/
def handleClearDb [FloorRing α] (st : WorkerState α) : WorkerState α × List Msg :=
  if ¬ (st.hasStore && st.isInitialized) then
    (st, [Msg.errorMsg "Vector store not initialized"])
  else
    let st1 := clearDatabase st
    let st2 := { st1 with conv := [] }
    (st2, [Msg.databaseCleared (getStats st2.hasConn st2.rows)])

/-- The `GET_STATS` case. -/
def handleGetStats [FloorRing α] (st : WorkerState α) : WorkerState α × List Msg :=
  if ¬ (st.hasStore && st.isInitialized) then
    (st, [Msg.statsResult ⟨0, 0, 0⟩])
  else (st, [Msg.statsResult (getStats st.hasConn st.rows)])

/-- A request to the worker, with the oracle inputs its handling consumes
(`ok` stands for success of the underlying external load or generation
call). -/
inductive Req (α : Type) where
  | init
  | loadModel (ok : Bool)
  | indexDocs (files : List (String × String)) (csOpt coOpt : Option Nat)
  | query (q : String) (chatHistory : List Turn) (modelAvail : Bool)
      (stream : List (String × Bool)) (rawOut : String)
  | getStatsReq
  | clearMemory
  | clearDb
  | generateSynthetic (ok : Bool) (rawOut : String) (topic : String)
deriving DecidableEq

/-- One dispatch of `self.onmessage`. -/
def step [FloorRing α] (sqrtFn : α → α) (embed : String → List α)
    (template : List Turn → String) (st : WorkerState α) :
    Req α → WorkerState α × List Msg
  | Req.init => handleInit st
  | Req.loadModel ok =>
    if st.modelLoaded then (st, [Msg.modelLoadedMsg])
    else if ok then ({ st with modelLoaded := true }, [Msg.modelLoadedMsg])
    else (st, [Msg.errorMsg "Model loading failed"])
  | Req.indexDocs files csOpt coOpt => handleIndex embed st files csOpt coOpt
  | Req.query q chatHistory modelAvail stream rawOut =>
    handleQuery sqrtFn embed template st q chatHistory modelAvail stream rawOut
  | Req.getStatsReq => handleGetStats st
  | Req.clearMemory => ({ st with conv := [] }, [Msg.memoryCleared])
  | Req.clearDb => handleClearDb st
  | Req.generateSynthetic ok rawOut topic =>
    if ok then ({ st with modelLoaded := true }, [Msg.syntheticGenerated rawOut topic])
    else (st, [Msg.errorMsg "Failed to generate synthetic data"])

/-- Run a sequence of requests, accumulating all posted messages. -/
def runWorker [FloorRing α] (sqrtFn : α → α) (embed : String → List α)
    (template : List Turn → String) (st : WorkerState α) :
    List (Req α) → WorkerState α × List Msg
  | [] => (st, [])
  | r :: rs =>
    let p := step sqrtFn embed template st r
    let q := runWorker sqrtFn embed template p.1 rs
    (q.1, p.2 ++ q.2)

/-- The worker state right before any request is handled: nothing
initialized, no rows, empty memory. -/
def freshState (α : Type) : WorkerState α :=
  { conv := [], rows := [], seqNext := 1, idb := none, hasStore := false,
    hasConn := false, isInitialized := false, modelLoaded := false,
    chunkSize := 500, chunkOverlap := 50 }

/-- A fully initialized worker state with nothing indexed, no conversation,
and the generation model not yet loaded (the state after a successful
`INIT` on a fresh process). -/
def initializedState (α : Type) : WorkerState α :=
  { freshState α with hasStore := true, hasConn := true, isInitialized := true }

/-!
Single-flight model loader.  The interleaving of concurrent load requests is
modelled as an event machine: execution is single-threaded and the handlers
run synchronously up to their awaits, so a schedule is a sequence of request
arrivals, promise settlements, and timer firings.  `arrive` is a
`LOAD_MODEL` request running the guarded load section; `arriveQ` is a
`QUERY` reaching its inline guarded section, whose started load is awaited
through `Promise.race` against a 60-second timer; `timeoutQ` is that timer
firing while the started pipeline call is still pending, whose catch clears
`isModelLoading` and `modelLoadPromise` although the call keeps running;
`arriveSyn` is a `GENERATE_SYNTHETIC` request reaching its unguarded
`if (!model)` load; `complete j ok` is the settlement of pipeline call `j`.
-/

/-- One in-flight pipeline load call: its identity, the requests awaiting
its promise in arrival order, whether the starting `QUERY`'s 60-second race
is still pending (`armed`), and whether settling it runs the guarded
section's `finally` that clears `isModelLoading`/`modelLoadPromise`
(false for the `GENERATE_SYNTHETIC` path, which never touches the flags). -/
structure LoadCall where
  id : Nat
  waiters : List Nat
  armed : Bool
  clearsFlags : Bool
deriving DecidableEq

/-- State of the model loader: the `model` flag, which in-flight call the
`isModelLoading`/`modelLoadPromise` variables currently describe (`none`
when cleared), all in-flight pipeline calls, the load outcomes delivered
to requesters so far (`true` = resolution, hence `MODEL_LOADED` for a
`LOAD_MODEL` requester; `false` = the rethrown rejection, reported as
`ERROR`), and counters of started and settled pipeline calls. -/
structure LoadState where
  model : Bool
  tracked : Option Nat
  calls : List LoadCall
  posted : List (Nat × Bool)
  loads : Nat
  completes : Nat
deriving DecidableEq

/-- An event of the loader schedule. -/
inductive LoadEv where
  | arrive (i : Nat)
  | arriveQ (i : Nat)
  | complete (j : Nat) (ok : Bool)
  | timeoutQ
  | arriveSyn (i : Nat)
deriving DecidableEq

/-- Add requester `i` to the waiters of in-flight call `j`. -/
def joinCall (calls : List LoadCall) (j i : Nat) : List LoadCall :=
  calls.map fun c => if c.id = j then { c with waiters := c.waiters ++ [i] } else c

/-- Start a fresh guarded pipeline call for requester `i` (sets
`isModelLoading` and publishes `modelLoadPromise`); `armed` records whether
the starter is a `QUERY` racing the 60-second timeout. -/
def startCall (s : LoadState) (i : Nat) (armed : Bool) : LoadState :=
  { s with
    tracked := some s.loads
    calls := s.calls ++ [⟨s.loads, [i], armed, true⟩]
    loads := s.loads + 1 }

/-- One event of the loader machine, following the source.  `LOAD_MODEL`:
immediate `MODEL_LOADED` when the model is present, else join the published
promise when one exists, else start the single tracked load.  The inline
`QUERY` section behaves identically except that the load it starts is
awaited with a 60-second timeout; when that timer fires first (`timeoutQ`),
the catch clears `isModelLoading`/`modelLoadPromise` while the pipeline call
keeps running untracked, and the starting query stops waiting.  Settling
call `j` resumes its remaining waiters in order with the outcome, sets
`model` on success, and — through the guarded section's unconditional
`finally` — clears the two flags whatever call they currently describe;
a settling `GENERATE_SYNTHETIC` call leaves the flags alone, as its path
never touches them, and also started its load ignoring the guard. -/
def loadStep (s : LoadState) : LoadEv → LoadState
  | LoadEv.arrive i =>
    if s.model then { s with posted := s.posted ++ [(i, true)] }
    else
      match s.tracked with
      | some j => { s with calls := joinCall s.calls j i }
      | none => startCall s i false
  | LoadEv.arriveQ i =>
    if s.model then s
    else
      match s.tracked with
      | some j => { s with calls := joinCall s.calls j i }
      | none => startCall s i true
  | LoadEv.complete j ok =>
    match s.calls.find? (fun c => c.id == j) with
    | none => s
    | some c =>
      { s with
        model := ok || s.model
        calls := s.calls.filter fun d => d.id != j
        posted := s.posted ++ c.waiters.map fun i => (i, ok)
        tracked := if c.clearsFlags then none else s.tracked
        completes := s.completes + 1 }
  | LoadEv.timeoutQ =>
    match s.tracked with
    | none => s
    | some j =>
      match s.calls.find? (fun c => c.id == j) with
      | none => s
      | some c =>
        if c.armed then
          { s with
            tracked := none
            calls := s.calls.map fun d =>
              if d.id = j then { d with armed := false, waiters := d.waiters.tail }
              else d }
        else s
  | LoadEv.arriveSyn _ =>
    if s.model then s
    else { s with calls := s.calls ++ [⟨s.loads, [], false, false⟩], loads := s.loads + 1 }

/-- The loader state before any request. -/
def initLoadState : LoadState :=
  ⟨false, none, [], [], 0, 0⟩

/-- Run a loader schedule from the initial state. -/
def runLoad (evs : List LoadEv) : LoadState :=
  evs.foldl loadStep initLoadState

/-- The number of pipeline load calls currently in flight. -/
def inFlight (s : LoadState) : Nat :=
  s.calls.length

/-- Whether an event is neither a `GENERATE_SYNTHETIC` load nor a query-side
load timeout. -/
def guardedEv : LoadEv → Bool
  | LoadEv.arriveSyn _ => false
  | LoadEv.timeoutQ => false
  | _ => true

/-- Loader invariant maintained by guarded events alone: either nothing is
in flight and the flags are clear, or exactly one guarded call is in flight
and the flags describe it. -/
def GuardedInv (s : LoadState) : Prop :=
  (s.calls = [] ∧ s.tracked = none) ∨
    ∃ c : LoadCall, s.calls = [c] ∧ s.tracked = some c.id ∧ c.clearsFlags = true

/-- The concatenation, in emission order, of all `QUERY_CHUNK` payloads in a
message list. -/
def chunkConcat (msgs : List Msg) : String :=
  String.join (msgs.filterMap fun m => match m with
    | Msg.queryChunk c => some c
    | _ => none)

/-- The first `QUERY_RESULT` payload in a message list (each query posts
exactly one). -/
def responseOf (msgs : List Msg) : Option (String × Bool) :=
  (msgs.filterMap fun m => match m with
    | Msg.queryResult r f => some (r, f)
    | _ => none).head?

/-- Whether a request is not a fallback-bound query (its model-availability
oracle is `true`); non-query requests qualify. -/
def queryGenB {β : Type} : Req β → Bool
  | Req.query _ _ m _ _ => m
  | _ => true

/-- A concrete initialized state with the generation model loaded. -/
def genState : WorkerState ℚ :=
  { initializedState ℚ with modelLoaded := true }

/-- A concrete state in which the file `"f"` has been indexed once. -/
def indexedOnce : WorkerState ℚ :=
  (handleIndex (fun _ => []) (initializedState ℚ) [("f", "hello")] none none).1

/-- Metadata of the concrete search rows below. -/
def c4meta : Meta :=
  ⟨some "f", some "f"⟩

/-- Two stored rows whose vectors coincide with the query vector `[1]`. -/
def c4pair : List (Row ℝ) :=
  [⟨1, [1], "t1", c4meta⟩, ⟨2, [1], "t2", c4meta⟩]

/-- A store holding one zero vector (NaN similarity against `[1]`) and one
unit vector. -/
def c4mix : List (Row ℝ) :=
  [⟨1, [0], "t1", c4meta⟩, ⟨2, [1], "t2", c4meta⟩]

/-- A one-row store for the search witness. -/
def c4single : List (Row ℝ) :=
  [⟨1, [1], "t1", c4meta⟩]

/-!
Supporting lemmas.
-/

theorem normSq_nonneg (a : List α) : 0 ≤ normSq a := by
  induction a with
  | nil => simp [normSq]
  | cons x xs ih =>
    simp only [normSq]
    exact add_nonneg (mul_self_nonneg x) ih

theorem eq_zero_of_normSq_eq_zero {a : List α} (h : normSq a = 0) :
    ∀ x ∈ a, x = 0 := by
  induction a with
  | nil => simp
  | cons y ys ih =>
    simp only [normSq] at h
    have hy := mul_self_nonneg y
    have hn := normSq_nonneg (α := α) ys
    have hy0 : y * y = 0 := by linarith
    have hn0 : normSq ys = 0 := by linarith
    intro x hx
    rcases List.mem_cons.mp hx with rfl | hx
    · exact mul_self_eq_zero.mp hy0
    · exact ih hn0 x hx

theorem dotProduct_eq_zero_left {a : List α} (h : ∀ x ∈ a, x = 0)
    (b : List α) : dotProduct a b = 0 := by
  induction a generalizing b with
  | nil => cases b <;> rfl
  | cons x xs ih =>
    cases b with
    | nil => rfl
    | cons y ys =>
      have hx : x = 0 := h x (by simp)
      have ih' := ih (fun z hz => h z (by simp [hz])) ys
      simp [dotProduct, hx, ih']

theorem dotProduct_eq_zero_right (a : List α) {b : List α}
    (h : ∀ y ∈ b, y = 0) : dotProduct a b = 0 := by
  induction a generalizing b with
  | nil => cases b <;> rfl
  | cons x xs ih =>
    cases b with
    | nil => rfl
    | cons y ys =>
      have hy : y = 0 := h y (by simp)
      have ih' := ih (b := ys) (fun z hz => h z (List.mem_cons_of_mem y hz))
      simp [dotProduct, hy, ih']

theorem loadStep_guardedInv (s : LoadState) (e : LoadEv)
    (hg : guardedEv e = true) (hinv : GuardedInv s) :
    GuardedInv (loadStep s e) := by
  cases e with
  | arrive i =>
    by_cases hm : s.model
    · rcases hinv with ⟨h1, h2⟩ | ⟨c, h1, h2, h3⟩
      · exact Or.inl ⟨by simp [loadStep, hm, h1], by simp [loadStep, hm, h2]⟩
      · exact Or.inr ⟨c, by simp [loadStep, hm, h1], by simp [loadStep, hm, h2], h3⟩
    · rcases hinv with ⟨h1, h2⟩ | ⟨c, h1, h2, h3⟩
      · refine Or.inr ⟨⟨s.loads, [i], false, true⟩, ?_, ?_, rfl⟩
        · simp [loadStep, hm, h2, startCall, h1]
        · simp [loadStep, hm, h2, startCall]
      · refine Or.inr ⟨{ c with waiters := c.waiters ++ [i] }, ?_, ?_, h3⟩
        · simp [loadStep, hm, h2, joinCall, h1]
        · simp [loadStep, hm, h2]
  | arriveQ i =>
    by_cases hm : s.model
    · simpa [loadStep, hm] using hinv
    · rcases hinv with ⟨h1, h2⟩ | ⟨c, h1, h2, h3⟩
      · refine Or.inr ⟨⟨s.loads, [i], true, true⟩, ?_, ?_, rfl⟩
        · simp [loadStep, hm, h2, startCall, h1]
        · simp [loadStep, hm, h2, startCall]
      · refine Or.inr ⟨{ c with waiters := c.waiters ++ [i] }, ?_, ?_, h3⟩
        · simp [loadStep, hm, h2, joinCall, h1]
        · simp [loadStep, hm, h2]
  | complete j ok =>
    rcases hinv with ⟨h1, h2⟩ | ⟨c, h1, h2, h3⟩
    · refine Or.inl ⟨?_, ?_⟩ <;> simp [loadStep, h1, h2, List.find?]
    · by_cases hj : c.id = j
      · have hbeq : (c.id == j) = true := by simp [hj]
        have hbne : (c.id != j) = false := by simp [hj]
        refine Or.inl ⟨?_, ?_⟩
        · simp [loadStep, h1, hbeq, hbne, List.find?, List.filter]
        · simp [loadStep, h1, hbeq, h3, List.find?]
      · have hbeq : (c.id == j) = false := by simp [hj]
        refine Or.inr ⟨c, ?_, ?_, h3⟩
        · simp [loadStep, h1, hbeq, List.find?]
        · simp [loadStep, h1, h2, hbeq, List.find?]
  | timeoutQ => simp [guardedEv] at hg
  | arriveSyn i => simp [guardedEv] at hg

theorem foldl_guardedInv (evs : List LoadEv) :
    ∀ s : LoadState, (∀ e ∈ evs, guardedEv e = true) → GuardedInv s →
      GuardedInv (evs.foldl loadStep s) := by
  induction evs with
  | nil =>
    intro s _ h
    simpa using h
  | cons e rest ih =>
    intro s hall hinv
    rw [List.foldl_cons]
    exact ih _ (fun x hx => hall x (by simp [hx]))
      (loadStep_guardedInv s e (hall e (by simp)) hinv)

/-!
Claim C2.
-/

/-- Claim C2, counterexample: at `a = [0]`, `b = [1]` the two vectors have
equal length and the norm of `a` is zero, but `cosineSimilarity` evaluates
to NaN (the JavaScript division `0 / 0`), not to `0` as the claim states. -/
theorem C2_counterexample :
    cosineSimilarity Real.sqrt [(0 : ℝ)] [1] = JSF.nan ∧
      (JSF.nan : JSF ℝ) ≠ JSF.fin 0 := by
  constructor
  · simp [cosineSimilarity, jsDiv, dotProduct, normSq, Real.sqrt_zero]
  · simp

/-- Claim C2, amended: the similarity measure of `similaritySearch` equals
`dot(a,b) / (sqrt(normSq a) * sqrt(normSq b))` whenever both norms are
nonzero, equals `0` whenever the two vectors differ in length, and is NaN
(not `0`) whenever the lengths agree and either norm is zero. -/
theorem C2_cosine_amended (a b : List ℝ) :
    (a.length ≠ b.length → cosineSimilarity Real.sqrt a b = JSF.fin 0)
  ∧ (a.length = b.length → normSq a ≠ 0 → normSq b ≠ 0 →
      cosineSimilarity Real.sqrt a b =
        JSF.fin (dotProduct a b / (Real.sqrt (normSq a) * Real.sqrt (normSq b))))
  ∧ (a.length = b.length → (normSq a = 0 ∨ normSq b = 0) →
      cosineSimilarity Real.sqrt a b = JSF.nan) := by
  refine ⟨fun hlen => ?_, fun hlen ha hb => ?_, fun hlen h0 => ?_⟩
  · rw [cosineSimilarity, if_pos hlen]
  · have ha' : 0 < normSq a := lt_of_le_of_ne (normSq_nonneg a) (Ne.symm ha)
    have hb' : 0 < normSq b := lt_of_le_of_ne (normSq_nonneg b) (Ne.symm hb)
    have hden : 0 < Real.sqrt (normSq a) * Real.sqrt (normSq b) :=
      mul_pos (Real.sqrt_pos.mpr ha') (Real.sqrt_pos.mpr hb')
    rw [cosineSimilarity, if_neg (by simp [hlen]), jsDiv, if_neg (ne_of_gt hden)]
  · rcases h0 with ha | hb
    · have hd : dotProduct a b = 0 :=
        dotProduct_eq_zero_left (eq_zero_of_normSq_eq_zero ha) b
      rw [cosineSimilarity, if_neg (by simp [hlen]), ha, Real.sqrt_zero, zero_mul,
        jsDiv, if_pos rfl, if_pos hd]
    · have hd : dotProduct a b = 0 :=
        dotProduct_eq_zero_right a (eq_zero_of_normSq_eq_zero hb)
      rw [cosineSimilarity, if_neg (by simp [hlen]), hb, Real.sqrt_zero, mul_zero,
        jsDiv, if_pos rfl, if_pos hd]

/-- Witness for C2: all three branches of the amended claim at concrete
vectors. -/
theorem C2_cosine_witness :
    cosineSimilarity Real.sqrt [(1 : ℝ)] [] = JSF.fin 0
  ∧ cosineSimilarity Real.sqrt [(1 : ℝ)] [2] =
      JSF.fin (dotProduct [(1 : ℝ)] [2] /
        (Real.sqrt (normSq [(1 : ℝ)]) * Real.sqrt (normSq [(2 : ℝ)])))
  ∧ cosineSimilarity Real.sqrt [(0 : ℝ)] [2] = JSF.nan :=
  ⟨(C2_cosine_amended [(1 : ℝ)] []).1 (by simp),
   (C2_cosine_amended [(1 : ℝ)] [2]).2.1 (by simp) (by norm_num [normSq])
     (by norm_num [normSq]),
   (C2_cosine_amended [(0 : ℝ)] [2]).2.2 (by simp) (Or.inl (by norm_num [normSq]))⟩

/-!
Claim C7.
-/

/-- Claim C7, counterexample: two ways the code lets a second load start
while one is in flight.  First, a `QUERY` starts the guarded load, its
60-second timeout fires while the pipeline call is still pending, and the
catch clears `isModelLoading` and `modelLoadPromise`; a later `LOAD_MODEL`
then passes the guard and starts a second concurrent load — both started
from guarded sections.  Second, a `GENERATE_SYNTHETIC` request arriving
during a `LOAD_MODEL` load starts its own pipeline call, as its load
section checks only `if (!model)` and ignores the guard. -/
theorem C7_counterexample :
    inFlight (runLoad [LoadEv.arriveQ 1, LoadEv.timeoutQ, LoadEv.arrive 2]) = 2
  ∧ inFlight (runLoad [LoadEv.arrive 1, LoadEv.arriveSyn 2]) = 2
  ∧ ¬ (2 ≤ 1) := by
  refine ⟨by decide, by decide, by decide⟩

/-- Claim C7, amended: in the absence of query-side load timeouts and of
`GENERATE_SYNTHETIC` loads, at most one load is in flight — the flags track
at most one call and a guarded section never starts a load while one is
tracked.  Two concurrent `LOAD_MODEL` requests cause exactly one underlying
load and both receive `MODEL_LOADED`; a failed load clears the in-flight
promise without caching the failure, so a later request starts a fresh
load.  The claimed universal bound fails, however: the inline `QUERY`
load's timeout catch clears the flags while its pipeline call is still
pending, after which a later guarded request starts a second concurrent
load, and the `GENERATE_SYNTHETIC` path ignores the guard entirely. -/
theorem C7_single_flight_amended :
    (∀ evs : List LoadEv, (∀ e ∈ evs, guardedEv e = true) →
      inFlight (runLoad evs) ≤ 1)
  ∧ (runLoad [LoadEv.arrive 1, LoadEv.arrive 2, LoadEv.complete 0 true]).loads = 1
  ∧ (runLoad [LoadEv.arrive 1, LoadEv.arrive 2, LoadEv.complete 0 true]).posted =
      [(1, true), (2, true)]
  ∧ (runLoad [LoadEv.arrive 1, LoadEv.arrive 2, LoadEv.complete 0 true]).model = true
  ∧ (runLoad [LoadEv.arrive 1, LoadEv.complete 0 false]).model = false
  ∧ (runLoad [LoadEv.arrive 1, LoadEv.complete 0 false]).tracked = none
  ∧ (runLoad [LoadEv.arrive 1, LoadEv.complete 0 false]).calls = []
  ∧ (runLoad [LoadEv.arrive 1, LoadEv.complete 0 false]).posted = [(1, false)]
  ∧ (runLoad [LoadEv.arrive 1, LoadEv.complete 0 false, LoadEv.arrive 2,
      LoadEv.complete 1 true]).loads = 2
  ∧ (runLoad [LoadEv.arrive 1, LoadEv.complete 0 false, LoadEv.arrive 2,
      LoadEv.complete 1 true]).posted = [(1, false), (2, true)] := by
  refine ⟨fun evs hall => ?_, by decide, by decide, by decide, by decide,
    by decide, by decide, by decide, by decide, by decide⟩
  have hinv := foldl_guardedInv evs initLoadState hall (Or.inl ⟨rfl, rfl⟩)
  unfold inFlight runLoad
  rcases hinv with ⟨h1, _⟩ | ⟨c, h1, _, _⟩
  · rw [h1]
    simp
  · rw [h1]
    simp

/-- Witness for C7: the single-flight bound applied to a concrete guarded
schedule without timeouts. -/
theorem C7_single_flight_witness :
    inFlight (runLoad [LoadEv.arrive 1, LoadEv.arrive 2]) ≤ 1 :=
  C7_single_flight_amended.1 [LoadEv.arrive 1, LoadEv.arrive 2] (by decide)

theorem foldl_append_eq (l : List String) :
    ∀ a : String, l.foldl (fun r s => r ++ s) a = a ++ String.join l := by
  induction l with
  | nil =>
    intro a
    simp [String.join]
  | cons s ls ih =>
    intro a
    show ls.foldl (fun r t => r ++ t) (a ++ s) = a ++ String.join (s :: ls)
    have h2 : String.join (s :: ls) = ls.foldl (fun r t => r ++ t) ("" ++ s) := rfl
    rw [ih (a ++ s), h2, ih ("" ++ s), String.empty_append, String.append_assoc]

theorem join_cons (s : String) (l : List String) :
    String.join (s :: l) = s ++ String.join l := by
  have h : String.join (s :: l) = l.foldl (fun r t => r ++ t) ("" ++ s) := rfl
  rw [h, foldl_append_eq, String.empty_append]

theorem join_append_one (l : List String) (s : String) :
    String.join (l ++ [s]) = String.join l ++ s := by
  have h : String.join (l ++ [s]) = [s].foldl (fun r t => r ++ t) (String.join l) := by
    show (l ++ [s]).foldl (fun r t => r ++ t) "" = _
    rw [List.foldl_append]
    rfl
  rw [h]
  rfl

theorem streamStep_join (acc : List String × String) (ev : String × Bool) :
    String.join (streamStep acc ev).1 ++ (streamStep acc ev).2 =
      String.join acc.1 ++ (acc.2 ++ ev.1) := by
  by_cases h1 : 20 ≤ acc.2.length + ev.1.length
  · simp [streamStep, String.length_append, h1, join_append_one, String.append_assoc]
  · by_cases h2 : ev.2 = true
    · by_cases h3 : acc.2 ++ ev.1 = ""
      · simp [streamStep, String.length_append, h1, h2, h3, join_append_one,
          String.append_assoc]
      · simp [streamStep, String.length_append, h1, h2, h3, join_append_one,
          String.append_assoc]
    · simp [streamStep, String.length_append, h1, h2, join_append_one,
        String.append_assoc]

theorem foldl_streamStep_join (evs : List (String × Bool)) :
    ∀ acc : List String × String,
      String.join ((evs.foldl streamStep acc).1) ++ (evs.foldl streamStep acc).2 =
        String.join acc.1 ++ acc.2 ++ streamedTextOf evs := by
  induction evs with
  | nil =>
    intro acc
    simp [streamedTextOf, show String.join ([] : List String) = "" from rfl,
      String.append_empty]
  | cons e rest ih =>
    intro acc
    rw [List.foldl_cons, ih (streamStep acc e), streamStep_join]
    have hst : streamedTextOf (e :: rest) = e.1 ++ streamedTextOf rest := by
      show String.join (e.1 :: rest.map Prod.fst) = _
      rw [join_cons]
      rfl
    rw [hst]
    simp [String.append_assoc]

theorem join_runStream (evs : List (String × Bool)) :
    String.join (runStream evs) = streamedTextOf evs := by
  have h := foldl_streamStep_join evs ([], "")
  simp only [String.append_empty, String.empty_append,
    show String.join ([] : List String) = "" from rfl] at h
  simp only [runStream]
  by_cases hb : (List.foldl streamStep ([], "") evs).2 = ""
  · rw [if_pos hb]
    rw [hb, String.append_empty] at h
    exact h
  · rw [if_neg hb, join_append_one]
    exact h

/-!
Claim C3.
-/

/-- Claim C3, counterexample: one streamed fragment `" a "` is emitted as a
`QUERY_CHUNK` verbatim, but the terminal `QUERY_RESULT` carries the trimmed
text `"a"`, so the concatenation of the chunk payloads differs from the
terminal response. -/
theorem C3_counterexample :
    chunkConcat (handleQuery (fun x : ℚ => x) (fun _ => []) (fun _ => "PROMPT")
        genState "q" [] true [(" a ", false)] "").2 = " a "
  ∧ responseOf (handleQuery (fun x : ℚ => x) (fun _ => []) (fun _ => "PROMPT")
        genState "q" [] true [(" a ", false)] "").2 = some ("a", false)
  ∧ (" a " : String) ≠ "a" := by
  refine ⟨by decide, by decide, by decide⟩

/-- Claim C3, amended: the concatenation of the `QUERY_CHUNK` payloads of a
generated query equals the raw streamed text, and the terminal
`QUERY_RESULT` response is that text (or the extracted raw output when
nothing was streamed) after prompt-echo stripping and whitespace trimming;
the two coincide exactly when that post-processing is the identity. -/
theorem C3_stream_amended {α : Type} [LinearOrderedField α] (sqrtFn : α → α)
    (embed : String → List α) (template : List Turn → String)
    (st : WorkerState α) (q : String) (chatHistory : List Turn)
    (stream : List (String × Bool)) (rawOut : String)
    (hs : st.hasStore = true) (hi : st.isInitialized = true) :
    chunkConcat (handleQuery sqrtFn embed template st q chatHistory true stream rawOut).2 =
      streamedTextOf stream
  ∧ (handleQuery sqrtFn embed template st q chatHistory true stream rawOut).2 =
      (runStream stream).map Msg.queryChunk ++
        [Msg.queryResult
          (cleanResponseOf
            (template (promptChat
              ((if chatHistory.isEmpty then st.conv else chatHistory) ++ [⟨Role.user, q⟩])
              (String.intercalate "\n\n"
                ((similaritySearch sqrtFn (embed q) st.rows 3).map fun d => d.pageContent))
              q))
            (streamedTextOf stream) rawOut) false] := by
  have hmsgs : (handleQuery sqrtFn embed template st q chatHistory true stream rawOut).2 =
      (runStream stream).map Msg.queryChunk ++
        [Msg.queryResult
          (cleanResponseOf
            (template (promptChat
              ((if chatHistory.isEmpty then st.conv else chatHistory) ++ [⟨Role.user, q⟩])
              (String.intercalate "\n\n"
                ((similaritySearch sqrtFn (embed q) st.rows 3).map fun d => d.pageContent))
              q))
            (streamedTextOf stream) rawOut) false] := by
    simp [handleQuery, hs, hi]
  refine ⟨?_, hmsgs⟩
  rw [chunkConcat, hmsgs, List.filterMap_append, List.filterMap_map]
  have hcomp : ((fun m => match m with
      | Msg.queryChunk c => some c
      | _ => none) ∘ Msg.queryChunk) = (some : String → Option String) := rfl
  rw [hcomp, List.filterMap_some]
  simp [join_runStream]

/-- Witness for C3: the amended relationship on a concrete query whose
streamed text needs no trimming, where chunk payloads and response agree. -/
theorem C3_stream_witness :
    chunkConcat (handleQuery (fun x : ℚ => x) (fun _ => []) (fun _ => "P")
        genState "hi" [] true [("hello world, this is long", false)] "").2 =
      streamedTextOf [("hello world, this is long", false)]
  ∧ (handleQuery (fun x : ℚ => x) (fun _ => []) (fun _ => "P")
        genState "hi" [] true [("hello world, this is long", false)] "").2 =
      (runStream [("hello world, this is long", false)]).map Msg.queryChunk ++
        [Msg.queryResult
          (cleanResponseOf
            ((fun _ => "P") (promptChat
              ((if ([] : List Turn).isEmpty then (genState).conv else []) ++
                [⟨Role.user, "hi"⟩])
              (String.intercalate "\n\n"
                ((similaritySearch (fun x : ℚ => x) ((fun _ => ([] : List ℚ)) "hi")
                    (genState).rows 3).map fun d => d.pageContent))
              "hi"))
            (streamedTextOf [("hello world, this is long", false)]) "") false] :=
  C3_stream_amended (fun x : ℚ => x) (fun _ => []) (fun _ => "P") genState "hi" []
    [("hello world, this is long", false)] "" rfl rfl

/-!
Claim C6.
-/

/-- Claim C6 (chunker modelled from the spec, the splitter library not being
part of this repository's sources): with `chunkSize = 500` and
`chunkOverlap = 50`, a content of 1000 identical characters yields exactly
the three windows `[0,500)`, `[450,950)` and `[900,1000)` of the input. -/
theorem C6_chunking (c : Char) :
    chunkText 500 50 (String.mk (List.replicate 1000 c)) =
      [String.mk ((List.replicate 1000 c).take 500),
       String.mk (((List.replicate 1000 c).drop 450).take 500),
       String.mk (((List.replicate 1000 c).drop 900).take 500)] := by
  have hwin1 : (List.replicate 1000 c).take 500 = List.replicate 500 c := by
    rw [List.take_replicate]
    norm_num
  have hwin2 : ((List.replicate 1000 c).drop 450).take 500 = List.replicate 500 c := by
    rw [List.drop_replicate, List.take_replicate]
    norm_num
  have hwin3 : ((List.replicate 1000 c).drop 900).take 500 = List.replicate 100 c := by
    rw [List.drop_replicate, List.take_replicate]
    norm_num
  have hc1 : ¬ ((List.replicate 1000 c).length ≤ 500) := by
    rw [List.length_replicate]
    decide
  have hc2 : ¬ ((List.replicate 550 c).length ≤ 500) := by
    rw [List.length_replicate]
    decide
  have hc3 : (List.replicate 100 c).length ≤ 500 := by
    rw [List.length_replicate]
    decide
  have u1 : ∀ f : Nat, chunkLoop 500 450 (f + 1) (List.replicate 1000 c) =
      List.replicate 500 c :: chunkLoop 500 450 f (List.replicate 550 c) := by
    intro f
    rw [chunkLoop, if_neg hc1, show max 450 1 = 450 by decide,
      List.take_replicate, List.drop_replicate]
    norm_num
  have u2 : ∀ f : Nat, chunkLoop 500 450 (f + 1) (List.replicate 550 c) =
      List.replicate 500 c :: chunkLoop 500 450 f (List.replicate 100 c) := by
    intro f
    rw [chunkLoop, if_neg hc2, show max 450 1 = 450 by decide,
      List.take_replicate, List.drop_replicate]
    norm_num
  have u3 : ∀ f : Nat, chunkLoop 500 450 (f + 1) (List.replicate 100 c) =
      [List.replicate 100 c] := by
    intro f
    rw [chunkLoop, if_pos hc3]
  have hdata : (String.mk (List.replicate 1000 c)).data = List.replicate 1000 c := rfl
  rw [chunkText, hdata]
  rw [show (List.replicate 1000 c).length = 997 + 1 + 1 + 1 by
    rw [List.length_replicate]]
  rw [u1, u2, u3]
  rw [hwin1, hwin2, hwin3]
  simp only [List.map_cons, List.map_nil]

/-!
Claim C8.
-/

/-- Claim C8: a `QUERY` against a store with no rows, with the generation
model not loaded and not becoming available within the bounded wait, yields
exactly the terminal `QUERY_RESULT` whose response is the fixed
no-documents message, flagged as a fallback. -/
theorem C8_fallback {α : Type} [LinearOrderedField α] (sqrtFn : α → α)
    (embed : String → List α) (template : List Turn → String)
    (st : WorkerState α) (q : String) (chatHistory : List Turn)
    (stream : List (String × Bool)) (rawOut : String)
    (hs : st.hasStore = true) (hi : st.isInitialized = true)
    (hr : st.rows = []) (hm : st.modelLoaded = false) :
    (handleQuery sqrtFn embed template st q chatHistory false stream rawOut).2 =
      [Msg.queryResult "No relevant documents found in the knowledge base." true] := by
  simp [handleQuery, hs, hi, hr, hm, similaritySearch, rankedRecords, jsSliceTo,
    fallbackResponse, List.insertionSort]

/-- Witness for C8: the fallback response on a concrete empty store. -/
theorem C8_fallback_witness :
    (handleQuery (fun x : ℚ => x) (fun _ => []) (fun _ => "")
        (initializedState ℚ) "q" [] false [] "").2 =
      [Msg.queryResult "No relevant documents found in the knowledge base." true] :=
  C8_fallback _ _ _ _ _ _ _ _ rfl rfl rfl rfl

/-!
Claim C9.
-/

/-- Claim C9: handling `CLEAR_DATABASE` deletes all chunk rows, restarts the
id sequence at 1, deletes the IndexedDB copy, and also resets the
conversation memory, while preserving the vector-store handle, the database
connection and the model flag; it reports the refreshed (all-zero) stats. -/
theorem C9_clear_database {α : Type} [LinearOrderedField α] [FloorRing α]
    (st : WorkerState α) (hs : st.hasStore = true)
    (hi : st.isInitialized = true) (hc : st.hasConn = true) :
    (handleClearDb st).1.rows = []
  ∧ (handleClearDb st).1.seqNext = 1
  ∧ (handleClearDb st).1.idb = none
  ∧ (handleClearDb st).1.conv = []
  ∧ (handleClearDb st).1.hasStore = st.hasStore
  ∧ (handleClearDb st).1.hasConn = st.hasConn
  ∧ (handleClearDb st).1.modelLoaded = st.modelLoaded
  ∧ (handleClearDb st).2 = [Msg.databaseCleared ⟨0, 0, 0⟩] := by
  simp [handleClearDb, clearDatabase, hs, hi, hc, getStats]

/-- Witness for C9: clearing a concrete initialized state. -/
theorem C9_clear_database_witness :
    (handleClearDb (initializedState ℚ)).1.rows = []
  ∧ (handleClearDb (initializedState ℚ)).1.seqNext = 1
  ∧ (handleClearDb (initializedState ℚ)).1.idb = none
  ∧ (handleClearDb (initializedState ℚ)).1.conv = []
  ∧ (handleClearDb (initializedState ℚ)).1.hasStore = (initializedState ℚ).hasStore
  ∧ (handleClearDb (initializedState ℚ)).1.hasConn = (initializedState ℚ).hasConn
  ∧ (handleClearDb (initializedState ℚ)).1.modelLoaded = (initializedState ℚ).modelLoaded
  ∧ (handleClearDb (initializedState ℚ)).2 = [Msg.databaseCleared ⟨0, 0, 0⟩] :=
  C9_clear_database (initializedState ℚ) rfl rfl rfl

/-!
Claim C10.
-/

/-- Claim C10: on the fallback path the incoming user turn is appended to
conversation memory (after the optional `chatHistory` sync), no assistant
turn is recorded, no trimming to 10 entries happens, the rows and the model
flag are untouched, and the only message is the fallback `QUERY_RESULT`. -/
theorem C10_fallback_frame {α : Type} [LinearOrderedField α] (sqrtFn : α → α)
    (embed : String → List α) (template : List Turn → String)
    (st : WorkerState α) (q : String) (chatHistory : List Turn)
    (stream : List (String × Bool)) (rawOut : String)
    (hs : st.hasStore = true) (hi : st.isInitialized = true)
    (hm : st.modelLoaded = false) :
    (handleQuery sqrtFn embed template st q chatHistory false stream rawOut).1.conv =
      (if chatHistory.isEmpty then st.conv else chatHistory) ++ [⟨Role.user, q⟩]
  ∧ (handleQuery sqrtFn embed template st q chatHistory false stream rawOut).1.rows = st.rows
  ∧ (handleQuery sqrtFn embed template st q chatHistory false stream rawOut).1.modelLoaded = false
  ∧ (handleQuery sqrtFn embed template st q chatHistory false stream rawOut).2 =
      [Msg.queryResult
        (fallbackResponse (similaritySearch sqrtFn (embed q) st.rows 3)) true] := by
  simp [handleQuery, hs, hi, hm]

/-- Witness for C10: the fallback frame condition on a concrete state whose
memory already holds 10 turns; the resulting memory has 11 entries. -/
theorem C10_fallback_frame_witness :
    (handleQuery (fun x : ℚ => x) (fun _ => []) (fun _ => "")
        { initializedState ℚ with conv := List.replicate 10 ⟨Role.user, "u"⟩ }
        "q" [] false [] "").1.conv =
      (if ([] : List Turn).isEmpty then List.replicate 10 (⟨Role.user, "u"⟩ : Turn)
        else []) ++ [⟨Role.user, "q"⟩]
  ∧ (handleQuery (fun x : ℚ => x) (fun _ => []) (fun _ => "")
        { initializedState ℚ with conv := List.replicate 10 ⟨Role.user, "u"⟩ }
        "q" [] false [] "").1.rows =
      ({ initializedState ℚ with conv := List.replicate 10 ⟨Role.user, "u"⟩ } :
        WorkerState ℚ).rows
  ∧ (handleQuery (fun x : ℚ => x) (fun _ => []) (fun _ => "")
        { initializedState ℚ with conv := List.replicate 10 ⟨Role.user, "u"⟩ }
        "q" [] false [] "").1.modelLoaded = false
  ∧ (handleQuery (fun x : ℚ => x) (fun _ => []) (fun _ => "")
        { initializedState ℚ with conv := List.replicate 10 ⟨Role.user, "u"⟩ }
        "q" [] false [] "").2 =
      [Msg.queryResult
        (fallbackResponse (similaritySearch (fun x : ℚ => x)
          ((fun _ => []) "q")
          ({ initializedState ℚ with conv := List.replicate 10 ⟨Role.user, "u"⟩ } :
            WorkerState ℚ).rows 3)) true] :=
  C10_fallback_frame _ _ _ _ _ _ _ _ rfl rfl rfl

/-!
Claim C5.
-/

theorem indexOneFile_state (embed : String → List α)
    (acc : WorkerState α × List Msg) (f : String × String)
    (h : f.2 = "" ∨ fileExists acc.1.hasConn acc.1.rows f.1 = true) :
    (indexOneFile embed acc f).1 = acc.1 ∧
      (f.2 ≠ "" → Msg.indexProgress f.1 0 true ∈ (indexOneFile embed acc f).2) := by
  rcases h with h | h
  · constructor
    · simp [indexOneFile, h]
    · intro hne
      exact absurd h hne
  · by_cases he : f.2 = ""
    · constructor
      · simp [indexOneFile, he]
      · intro hne
        exact absurd he hne
    · constructor
      · simp [indexOneFile, he, h]
      · intro _
        simp [indexOneFile, he, h]

theorem foldl_indexOneFile_msgs (embed : String → List α)
    (files : List (String × String)) :
    ∀ (acc : WorkerState α × List Msg) (m : Msg), m ∈ acc.2 →
      m ∈ (files.foldl (indexOneFile embed) acc).2 := by
  induction files with
  | nil =>
    intro acc m hm
    simpa using hm
  | cons f rest ih =>
    intro acc m hm
    rw [List.foldl_cons]
    apply ih
    unfold indexOneFile
    split_ifs <;> simp [hm]

theorem foldl_indexOneFile_skip (embed : String → List α)
    (files : List (String × String)) :
    ∀ acc : WorkerState α × List Msg,
      (∀ f ∈ files, f.2 = "" ∨ fileExists acc.1.hasConn acc.1.rows f.1 = true) →
      (files.foldl (indexOneFile embed) acc).1 = acc.1 ∧
        ∀ f ∈ files, f.2 ≠ "" →
          Msg.indexProgress f.1 0 true ∈ (files.foldl (indexOneFile embed) acc).2 := by
  induction files with
  | nil =>
    intro acc _
    exact ⟨rfl, by simp⟩
  | cons f rest ih =>
    intro acc hall
    have hone := indexOneFile_state embed acc f (hall f (by simp))
    rw [List.foldl_cons]
    have hrest : ∀ g ∈ rest, g.2 = "" ∨
        fileExists (indexOneFile embed acc f).1.hasConn
          (indexOneFile embed acc f).1.rows g.1 = true := by
      intro g hg
      rw [hone.1]
      exact hall g (by simp [hg])
    obtain ⟨hst, hmem⟩ := ih (indexOneFile embed acc f) hrest
    refine ⟨by rw [hst, hone.1], ?_⟩
    intro g hg hge
    rcases List.mem_cons.mp hg with rfl | hg2
    · exact foldl_indexOneFile_msgs embed rest _ _ (hone.2 hge)
    · exact hmem g hg2 hge

/-- Claim C5, counterexample: after `"f"` has been committed, a second
`INDEX_DOCUMENTS` batch containing `"f"` with empty content is skipped
silently — the empty-content check runs before the `fileExists` check and
emits nothing — so no `skipped` progress signal is posted, although the
claim requires one; the store is still unchanged. -/
theorem C5_counterexample :
    fileExists indexedOnce.hasConn indexedOnce.rows "f" = true
  ∧ Msg.indexProgress "f" 0 true ∉
      (handleIndex (fun _ => ([] : List ℚ)) indexedOnce [("f", "")] none none).2
  ∧ (handleIndex (fun _ => ([] : List ℚ)) indexedOnce [("f", "")] none none).1.rows =
      indexedOnce.rows := by
  refine ⟨by decide, by decide, by decide⟩

/-- Claim C5, amended: when every file of the batch either has empty content
or carries an already-indexed name, the batch inserts nothing — the rows and
`getStats().totalChunks` are unchanged — and every such file with non-empty
content gets a `skipped` progress signal before any chunking or insertion; a
file with empty content is skipped silently instead (its check precedes the
`fileExists` check). -/
theorem C5_idempotent_amended {α : Type} [LinearOrderedField α] [FloorRing α]
    (embed : String → List α) (st : WorkerState α)
    (files : List (String × String)) (csOpt coOpt : Option Nat)
    (hs : st.hasStore = true) (hi : st.isInitialized = true)
    (hall : ∀ f ∈ files, f.2 = "" ∨ fileExists st.hasConn st.rows f.1 = true) :
    (handleIndex embed st files csOpt coOpt).1.rows = st.rows
  ∧ (getStats (handleIndex embed st files csOpt coOpt).1.hasConn
        (handleIndex embed st files csOpt coOpt).1.rows).totalChunks =
      (getStats st.hasConn st.rows).totalChunks
  ∧ ∀ f ∈ files, f.2 ≠ "" →
      Msg.indexProgress f.1 0 true ∈ (handleIndex embed st files csOpt coOpt).2 := by
  have hg : (¬ (st.hasStore && st.isInitialized) = true) = False := by
    simp [hs, hi]
  rcases hopt : (csOpt.isSome || coOpt.isSome) with hf | ht
  all_goals
    simp only [handleIndex, hg, if_false, hopt, if_true, Bool.false_eq_true, if_false]
  · -- no splitter update: st0 = st
    obtain ⟨hst1, hmem⟩ := foldl_indexOneFile_skip embed files (st, []) (by simpa using hall)
    refine ⟨by rw [hst1], by rw [hst1], ?_⟩
    intro f hf2 hne
    have := hmem f hf2 hne
    simp [this]
  · -- splitter updated: rows and connection unchanged
    obtain ⟨hst1, hmem⟩ := foldl_indexOneFile_skip embed files
      ({ st with chunkSize := csOpt.getD 500, chunkOverlap := coOpt.getD 50 }, [])
      (by simpa using hall)
    refine ⟨by rw [hst1], by rw [hst1], ?_⟩
    intro f hf2 hne
    have := hmem f hf2 hne
    simp [this]

/-- Witness for C5: re-indexing the already committed batch `[("f",
"hello")]` leaves the store unchanged and reports `skipped`. -/
theorem C5_idempotent_witness :
    (handleIndex (fun _ => ([] : List ℚ)) indexedOnce [("f", "hello")] none none).1.rows =
      indexedOnce.rows
  ∧ (getStats (handleIndex (fun _ => ([] : List ℚ)) indexedOnce
        [("f", "hello")] none none).1.hasConn
      (handleIndex (fun _ => ([] : List ℚ)) indexedOnce
        [("f", "hello")] none none).1.rows).totalChunks =
      (getStats indexedOnce.hasConn indexedOnce.rows).totalChunks
  ∧ ∀ f ∈ [("f", "hello")], f.2 ≠ "" →
      Msg.indexProgress f.1 0 true ∈
        (handleIndex (fun _ => ([] : List ℚ)) indexedOnce [("f", "hello")] none none).2 :=
  C5_idempotent_amended (fun _ => ([] : List ℚ)) indexedOnce [("f", "hello")]
    none none (by decide) (by decide) (by decide)

/-!
Claim C1.
-/

theorem foldl_insertRow_conv (rows : List (Row α)) :
    ∀ s : WorkerState α,
      (rows.foldl (fun s r => insertRow s r.vector r.text r.meta) s).conv = s.conv := by
  induction rows with
  | nil =>
    intro s
    rfl
  | cons r rest ih =>
    intro s
    rw [List.foldl_cons, ih]
    rfl

theorem foldl_insertDoc_conv (embed : String → List α) (docs : List Doc) :
    ∀ s : WorkerState α,
      (docs.foldl (fun s d => insertRow s (embed d.pageContent) d.pageContent d.meta) s).conv =
        s.conv := by
  induction docs with
  | nil =>
    intro s
    rfl
  | cons d rest ih =>
    intro s
    rw [List.foldl_cons, ih]
    rfl

theorem addDocuments_conv (embed : String → List α) (s : WorkerState α)
    (docs : List Doc) : (addDocuments embed s docs).conv = s.conv :=
  foldl_insertDoc_conv embed docs s

theorem indexOneFile_conv (embed : String → List α)
    (acc : WorkerState α × List Msg) (f : String × String) :
    (indexOneFile embed acc f).1.conv = acc.1.conv := by
  unfold indexOneFile
  split_ifs <;> simp [addDocuments_conv]

theorem foldl_indexOneFile_conv (embed : String → List α)
    (files : List (String × String)) :
    ∀ acc : WorkerState α × List Msg,
      ((files.foldl (indexOneFile embed) acc).1).conv = acc.1.conv := by
  induction files with
  | nil =>
    intro acc
    rfl
  | cons f rest ih =>
    intro acc
    rw [List.foldl_cons, ih, indexOneFile_conv]

theorem handleIndex_conv [FloorRing α] (embed : String → List α)
    (st : WorkerState α) (files : List (String × String))
    (csOpt coOpt : Option Nat) :
    (handleIndex embed st files csOpt coOpt).1.conv = st.conv := by
  unfold handleIndex
  split_ifs <;> first
    | rfl
    | exact foldl_indexOneFile_conv embed files _

theorem handleInit_conv [FloorRing α] (st : WorkerState α) :
    (handleInit st).1.conv = st.conv := by
  unfold handleInit
  split_ifs with h
  · rfl
  · exact foldl_insertRow_conv _ _

theorem trimmed_length_le (conv2 : List Turn) :
    (if 10 < conv2.length then jsSliceNeg 10 conv2 else conv2).length ≤ 10 := by
  split_ifs with h
  · simp only [jsSliceNeg, List.length_drop]
    omega
  · omega

theorem handleQuery_gen_conv_length (sqrtFn : α → α) (embed : String → List α)
    (template : List Turn → String) (st : WorkerState α) (q : String)
    (chatHistory : List Turn) (stream : List (String × Bool)) (rawOut : String)
    (h10 : st.conv.length ≤ 10) :
    ((handleQuery sqrtFn embed template st q chatHistory true stream rawOut).1).conv.length ≤
      10 := by
  unfold handleQuery
  split_ifs <;> first
    | exact h10
    | (simp only [Bool.or_true]; exact trimmed_length_le _)

theorem step_conv_length [FloorRing α] (sqrtFn : α → α)
    (embed : String → List α) (template : List Turn → String)
    (st : WorkerState α) (r : Req α) (h10 : st.conv.length ≤ 10)
    (hg : queryGenB r = true) :
    ((step sqrtFn embed template st r).1).conv.length ≤ 10 := by
  cases r with
  | init =>
    show ((handleInit st).1).conv.length ≤ 10
    rw [handleInit_conv]
    exact h10
  | loadModel ok =>
    simp only [step]
    split_ifs <;> simpa using h10
  | indexDocs files csOpt coOpt =>
    show ((handleIndex embed st files csOpt coOpt).1).conv.length ≤ 10
    rw [handleIndex_conv]
    exact h10
  | query q chatHistory modelAvail stream rawOut =>
    have hm : modelAvail = true := hg
    subst hm
    exact handleQuery_gen_conv_length sqrtFn embed template st q chatHistory
      stream rawOut h10
  | getStatsReq =>
    simp only [step, handleGetStats]
    split_ifs <;> simp_all
  | clearMemory =>
    simp [step]
  | clearDb =>
    simp only [step, handleClearDb]
    split_ifs <;> simp_all
  | generateSynthetic ok rawOut topic =>
    simp only [step]
    split_ifs <;> simp_all

theorem runWorker_conv_length [FloorRing α] (sqrtFn : α → α)
    (embed : String → List α) (template : List Turn → String) :
    ∀ (reqs : List (Req α)) (st : WorkerState α), reqs.all queryGenB = true →
      st.conv.length ≤ 10 →
      ((runWorker sqrtFn embed template st reqs).1).conv.length ≤ 10 := by
  intro reqs
  induction reqs with
  | nil =>
    intro st _ h10
    exact h10
  | cons r rest ih =>
    intro st hall h10
    rw [List.all_cons, Bool.and_eq_true] at hall
    show ((runWorker sqrtFn embed template
      (step sqrtFn embed template st r).1 rest).1).conv.length ≤ 10
    exact ih _ hall.2 (step_conv_length sqrtFn embed template st r h10 hall.1)

/-- Claim C1, counterexample: eleven consecutive fallback-path queries (the
generation model never becomes available) each append a user turn and never
trim, so conversation memory reaches 11 entries, refuting the bound of 10. -/
theorem C1_counterexample :
    ((runWorker (fun x : ℚ => x) (fun _ => []) (fun _ => "") (freshState ℚ)
        (Req.init :: List.replicate 11 (Req.query "q" [] false [] ""))).1).conv.length = 11
  ∧ ¬ (11 ≤ 10) := by
  refine ⟨by decide, by decide⟩

/-- Claim C1, amended: over any request sequence whose queries all reach the
generation path, conversation memory holds at most 10 turns after every
request (oldest trimmed first); prompt construction reads exactly the last 6
turns of the memory obtained after appending the incoming user turn.
Fallback-path queries, by contrast, append without trimming and can leave
the memory above 10 (see the counterexample), and within a generated query
the memory transiently exceeds 10 between the appends and the final trim. -/
theorem C1_memory_amended {α : Type} [LinearOrderedField α] [FloorRing α]
    (sqrtFn : α → α) (embed : String → List α) (template : List Turn → String) :
    (∀ (st : WorkerState α) (reqs : List (Req α)), reqs.all queryGenB = true →
        st.conv.length ≤ 10 →
        ((runWorker sqrtFn embed template st reqs).1).conv.length ≤ 10)
  ∧ (∀ (hist : List Turn) (ctx q : String),
        ((promptChat hist ctx q).drop 1).dropLast =
          (hist.drop (hist.length - 6)).map normalizeRole) := by
  constructor
  · intro st reqs hall h10
    exact runWorker_conv_length sqrtFn embed template reqs st hall h10
  · intro hist ctx q
    show (((jsSliceNeg 6 hist).map normalizeRole ++ [contextTurn ctx q]).dropLast) = _
    rw [List.dropLast_concat]
    rfl

/-- Witness for C1: the memory bound on a concrete initialization followed
by one generated query. -/
theorem C1_memory_witness :
    ((runWorker (fun x : ℚ => x) (fun _ => []) (fun _ => "") (freshState ℚ)
        [Req.init, Req.query "hi" [] true [] "out"]).1).conv.length ≤ 10 :=
  (C1_memory_amended (fun x : ℚ => x) (fun _ => []) (fun _ => "")).1 (freshState ℚ)
    [Req.init, Req.query "hi" [] true [] "out"] (by decide) (by decide)

/-!
Claim C4.
-/

theorem isFin_iff {x : JSF α} : isFin x ↔ ∃ v, x = JSF.fin v := by
  cases x <;> simp [isFin]

theorem keepBefore_iff {a b : SimRec α} {x y : α}
    (ha : a.similarity = JSF.fin x) (hb : b.similarity = JSF.fin y) :
    keepBefore a b ↔ y ≤ x := by
  unfold keepBefore
  rw [ha, hb]
  show ¬ (0 < y - x) ↔ y ≤ x
  rw [not_lt, sub_nonpos]

theorem orderedInsert_sorted_fin (a : SimRec α) :
    ∀ l : List (SimRec α), isFin a.similarity → (∀ x ∈ l, isFin x.similarity) →
      l.Sorted keepBefore → (List.orderedInsert keepBefore a l).Sorted keepBefore := by
  intro l
  induction l with
  | nil =>
    intro _ _ _
    simp [List.orderedInsert]
  | cons b l ih =>
    intro hfa hfl hsort
    obtain ⟨va, hva⟩ := isFin_iff.mp hfa
    obtain ⟨vb, hvb⟩ := isFin_iff.mp (hfl b (by simp))
    by_cases hab : keepBefore a b
    · rw [List.orderedInsert, if_pos hab, List.sorted_cons]
      refine ⟨?_, hsort⟩
      intro c hc
      rcases List.mem_cons.mp hc with rfl | hcl
      · exact hab
      · obtain ⟨vc, hvc⟩ := isFin_iff.mp (hfl c (by simp [hcl]))
        rw [keepBefore_iff hva hvc]
        have h1 := (keepBefore_iff hva hvb).mp hab
        have h2 := (keepBefore_iff hvb hvc).mp (List.rel_of_sorted_cons hsort c hcl)
        linarith
    · rw [List.orderedInsert, if_neg hab, List.sorted_cons]
      have hbl := (List.sorted_cons.mp hsort).1
      have hsl := (List.sorted_cons.mp hsort).2
      refine ⟨?_, ih hfa (fun x hx => hfl x (by simp [hx])) hsl⟩
      intro c hc
      rcases (List.mem_orderedInsert keepBefore).mp hc with rfl | hcl
      · rw [keepBefore_iff hvb hva]
        have h1 : ¬ (vb ≤ va) := fun h => hab ((keepBefore_iff hva hvb).mpr h)
        linarith
      · exact hbl c hcl

theorem insertionSort_sorted_fin :
    ∀ l : List (SimRec α), (∀ x ∈ l, isFin x.similarity) →
      (List.insertionSort keepBefore l).Sorted keepBefore := by
  intro l
  induction l with
  | nil =>
    intro _
    simp [List.insertionSort]
  | cons a l ih =>
    intro hall
    show (List.orderedInsert keepBefore a (List.insertionSort keepBefore l)).Sorted keepBefore
    refine orderedInsert_sorted_fin a _ (hall a (by simp)) ?_
      (ih fun x hx => hall x (by simp [hx]))
    intro x hx
    have hx2 : x ∈ l := (List.perm_insertionSort keepBefore l).mem_iff.mp hx
    exact hall x (by simp [hx2])

theorem cos_one_one : cosineSimilarity Real.sqrt [(1 : ℝ)] [1] = JSF.fin 1 := by
  norm_num [cosineSimilarity, dotProduct, normSq, jsDiv, Real.sqrt_one]

theorem cos_one_zero : cosineSimilarity Real.sqrt [(1 : ℝ)] [0] = JSF.nan := by
  norm_num [cosineSimilarity, dotProduct, normSq, jsDiv, Real.sqrt_one, Real.sqrt_zero]

/-- Claim C4, counterexample, refuting both halves of the claim as stated
over any integer `k` and any store content.  First, JavaScript
`slice(0, -1)` keeps all but the last element, so `similaritySearch` with
`k = -1` on a two-row store returns one document, not at most `-1`.  Second,
a stored zero vector has NaN similarity against a query of equal length;
NaN poisons the descending sort (every comparator result is NaN, so nothing
moves), and the resulting document order is not non-increasing — NaN
compares `false` against everything. -/
theorem C4_counterexample :
    (similaritySearch Real.sqrt [(1 : ℝ)] c4pair (-1)).length = 1
  ∧ ¬ ((1 : ℤ) ≤ -1)
  ∧ ¬ ((jsSliceTo 3 (rankedRecords Real.sqrt [(1 : ℝ)] c4mix)).Sorted
        (fun a b => jsGE a.similarity b.similarity)) := by
  have hkeep11 : keepBefore (⟨"t1", c4meta, JSF.fin (1 : ℝ)⟩ : SimRec ℝ)
      ⟨"t2", c4meta, JSF.fin 1⟩ := by
    rw [keepBefore_iff rfl rfl]
  have hrank1 : rankedRecords Real.sqrt [(1 : ℝ)] c4pair =
      [⟨"t1", c4meta, JSF.fin 1⟩, ⟨"t2", c4meta, JSF.fin 1⟩] := by
    rw [rankedRecords]
    simp only [c4pair, List.map_cons, List.map_nil, cos_one_one]
    simp only [List.insertionSort, List.orderedInsert]
    rw [if_pos hkeep11]
  have hkeepN : keepBefore (⟨"t1", c4meta, (JSF.nan : JSF ℝ)⟩ : SimRec ℝ)
      ⟨"t2", c4meta, JSF.fin 1⟩ := by
    show ¬ cmpPos (JSF.nan : JSF ℝ)
    exact fun h => h
  have hrank2 : rankedRecords Real.sqrt [(1 : ℝ)] c4mix =
      [⟨"t1", c4meta, JSF.nan⟩, ⟨"t2", c4meta, JSF.fin 1⟩] := by
    rw [rankedRecords]
    simp only [c4mix, List.map_cons, List.map_nil, cos_one_zero, cos_one_one]
    simp only [List.insertionSort, List.orderedInsert]
    rw [if_pos hkeepN]
  refine ⟨?_, by decide, ?_⟩
  · rw [similaritySearch, hrank1, List.length_map, jsSliceTo,
      if_neg (by norm_num), List.length_take]
    norm_num
  · intro hsort
    rw [jsSliceTo, if_pos (by norm_num), hrank2,
      List.take_of_length_le (by simp)] at hsort
    have h2 := List.rel_of_sorted_cons hsort
      (⟨"t2", c4meta, JSF.fin 1⟩ : SimRec ℝ) (by simp)
    simp only [] at h2
    exact h2

/-- Claim C4, amended: for any nonnegative integer `k`, `similaritySearch`
returns at most `k` documents; and whenever every stored vector has a
numeric (non-NaN) cosine similarity against the query vector, the retained
records are ordered by non-increasing similarity.  Negative `k` (JavaScript
`slice` counts from the end) and NaN similarities (zero-norm vectors) break
the claim as stated. -/
theorem C4_search_amended (qv : List ℝ) (rows : List (Row ℝ)) (k : ℤ)
    (hk : 0 ≤ k) :
    ((similaritySearch Real.sqrt qv rows k).length : ℤ) ≤ k
  ∧ ((∀ r ∈ rows, isFin (cosineSimilarity Real.sqrt qv r.vector)) →
      (jsSliceTo k (rankedRecords Real.sqrt qv rows)).Sorted
        (fun a b => jsGE a.similarity b.similarity)) := by
  constructor
  · rw [similaritySearch, List.length_map, jsSliceTo, if_pos hk, List.length_take]
    have h1 : min k.toNat (rankedRecords Real.sqrt qv rows).length ≤ k.toNat :=
      min_le_left _ _
    have h2 : ((min k.toNat (rankedRecords Real.sqrt qv rows).length : Nat) : ℤ) ≤
        (k.toNat : ℤ) := by exact_mod_cast h1
    rwa [Int.toNat_of_nonneg hk] at h2
  · intro hfin
    have hallfin : ∀ x ∈ rows.map (fun r =>
        (⟨r.text, r.meta, cosineSimilarity Real.sqrt qv r.vector⟩ : SimRec ℝ)),
        isFin x.similarity := by
      intro x hx
      obtain ⟨r, hr, rfl⟩ := List.mem_map.mp hx
      exact hfin r hr
    have hsorted : (rankedRecords Real.sqrt qv rows).Sorted keepBefore :=
      insertionSort_sorted_fin _ hallfin
    have htake : (jsSliceTo k (rankedRecords Real.sqrt qv rows)).Sorted keepBefore := by
      rw [jsSliceTo, if_pos hk]
      exact List.Pairwise.sublist (List.take_sublist _ _) hsorted
    have hmemfin : ∀ x ∈ jsSliceTo k (rankedRecords Real.sqrt qv rows),
        isFin x.similarity := by
      intro x hx
      rw [jsSliceTo, if_pos hk] at hx
      have hx2 : x ∈ rankedRecords Real.sqrt qv rows := List.take_subset _ _ hx
      have hx3 := (List.perm_insertionSort keepBefore _).mem_iff.mp hx2
      exact hallfin x hx3
    refine List.Pairwise.imp_of_mem ?_ htake
    intro a b ha hb hkeep
    obtain ⟨va, hva⟩ := isFin_iff.mp (hmemfin a ha)
    obtain ⟨vb, hvb⟩ := isFin_iff.mp (hmemfin b hb)
    have hle := (keepBefore_iff hva hvb).mp hkeep
    show jsGE a.similarity b.similarity
    rw [hva, hvb]
    exact hle

/-- Witness for C4: the amended bound and ordering on a concrete one-row
store whose similarity is the number 1. -/
theorem C4_search_witness :
    ((similaritySearch Real.sqrt [(1 : ℝ)] c4single 1).length : ℤ) ≤ 1
  ∧ (jsSliceTo 1 (rankedRecords Real.sqrt [(1 : ℝ)] c4single)).Sorted
      (fun a b => jsGE a.similarity b.similarity) :=
  ⟨(C4_search_amended [(1 : ℝ)] c4single 1 (by norm_num)).1,
   (C4_search_amended [(1 : ℝ)] c4single 1 (by norm_num)).2 (by
     intro r hr
     simp only [c4single, List.mem_singleton] at hr
     subst hr
     rw [show (⟨1, [1], "t1", c4meta⟩ : Row ℝ).vector = [(1 : ℝ)] from rfl, cos_one_one]
     exact trivial)⟩

end RagWorker
